import Mathlib

/-!
Shallow embedding of the audio-loading core of `paderbox/io/audioread.py`
(the slice-notation parser `_parse_audio_slice`, the unit resolution,
the format-dispatching decoder inside `load_audio`, channel selection,
and `recursive_load_audio`), together with theorems settling the
specification claims about this module.

Modeling conventions:
* Python exceptions become values of `PyErr`; fallible code returns `Except`.
* numpy arrays become `NDArr`: a shape together with row-major flat data
  over `ℚ`.  Sample values are rationals, since the claims under study
  concern shapes, windows and error behavior, not float quantization
  (dtype conversion is tracked only for its error behavior).
* The file system is a map from path strings to in-memory audio files;
  `soundfile.SoundFile` and `audioread.audio_open` read from it.
* Python's `re` digit class is modeled as ASCII digits and `rsplit('::', 1)`
  as `rsplitDC`, splitting at the rightmost occurrence of `"::"`.
-/

deriving instance DecidableEq for Except

namespace Paderbox

/-- The Python exceptions that the audio-loading code can raise.
`valueErrorFrom p` models `raise ValueError(path) from e`: a `ValueError`
naming the offending path and wrapping the original parse exception.
`valueErrorSampleRate` models the `ValueError` whose message carries the
requested and the actual sampling rate. -/
inductive PyErr where
  | assertionError
  | valueError (msg : String)
  | valueErrorFrom (path : String)
  | valueErrorSampleRate (expected actual : Nat)
  | typeError (msg : String)
  | notImplementedError
  | runtimeError (msg : String)
  | osError (msg : String)
  | indexError
  | keyError
deriving DecidableEq

/-- A channel selection: a single integer index, a `slice(lo, hi)`, or a
list of integer indices, as accepted by `load_audio`'s `channel` argument. -/
inductive Channel where
  | index (i : Int)
  | slc (lo hi : Option Int)
  | idxList (l : List Int)
deriving DecidableEq

/-- Target dtypes accepted by `load_audio` (`float64` is the default). -/
inductive DType where
  | float64
  | float32
  | int16
  | int32
deriving DecidableEq

/-- The soundfile-reported subtype of a file; `other` stands for any
subtype outside the module's `Dispatcher` mapping. -/
inductive SfSubtype where
  | pcm16
  | float
  | double
  | other
deriving DecidableEq

/-- An in-memory audio file: metadata plus the decoded samples, where
`sample c t` is the value of channel `c` at frame `t`. -/
structure AudioFile where
  samplerate : Nat
  channels : Nat
  frames : Nat
  subtype : SfSubtype
  sample : Nat → Nat → ℚ

/-- The file system visible to the loader. -/
abbrev FS := String → Option AudioFile

/-- A numpy array: shape plus row-major flat data. -/
structure NDArr where
  shape : List Nat
  data : List ℚ
deriving DecidableEq

/-- `ndarray.size`: the total element count. -/
def NDArr.size (a : NDArr) : Nat := a.shape.prod

/-- `ndarray.ndim`. -/
def NDArr.ndim (a : NDArr) : Nat := a.shape.length

/-- Element access for one-dimensional arrays. -/
def NDArr.at1 (a : NDArr) (i : Nat) : ℚ := a.data.getD i 0

/-- Element access for two-dimensional arrays (row `i`, column `j`). -/
def NDArr.at2 (a : NDArr) (i j : Nat) : ℚ :=
  a.data.getD (i * a.shape.getD 1 0 + j) 0

/-- Row-major data of an `m × n` grid, built row by row starting at row
index `i0`. -/
def gridFrom (n : Nat) (f : Nat → Nat → ℚ) : Nat → Nat → List ℚ
  | _, 0 => []
  | i0, m + 1 => (List.range n).map (f i0) ++ gridFrom n f (i0 + 1) m

/-- Row-major data of an `m × n` grid with entries `f i j`. -/
def grid (m n : Nat) (f : Nat → Nat → ℚ) : List ℚ := gridFrom n f 0 m

/-- `ndarray.T`.  The signals handled by `load_audio` are one- or
two-dimensional; `.T` transposes a two-dimensional array and is the
identity on one-dimensional ones. -/
def NDArr.T (a : NDArr) : NDArr :=
  match a.shape with
  | [m, n] => ⟨[n, m], grid n m (fun j i => a.at2 i j)⟩
  | _ => a

/-- Whether a character list starts with `"::"`. -/
def startsDC (l : List Char) : Bool :=
  decide (l.take 2 = [':', ':'])

/-- `'::' in path`. -/
def containsDC : List Char → Bool
  | [] => false
  | c :: cs => startsDC (c :: cs) || containsDC cs

/-- `path.rsplit('::', maxsplit=1)`: split at the rightmost occurrence of
`"::"`; `none` when the delimiter does not occur. -/
def rsplitDC : List Char → Option (List Char × List Char)
  | [] => none
  | c :: cs =>
    match rsplitDC cs with
    | some pr => some (c :: pr.1, pr.2)
    | none => if startsDC (c :: cs) then some ([], cs.drop 1) else none

/-- Value of a nonempty decimal digit string (Python `int`). -/
def digitsVal (l : List Char) : Nat :=
  l.foldl (fun a c => 10 * a + (c.toNat - 48)) 0

/-- Maximal leading digit run and the rest (greedy `(\d+)?`). -/
def takeDigits (l : List Char) : List Char × List Char :=
  (l.takeWhile Char.isDigit, l.dropWhile Char.isDigit)

/-- A regex capture group: `none` when the optional digit group did not
participate, otherwise the `int` of the digits. -/
def optVal (d : List Char) : Option Nat :=
  if d = [] then none else some (digitsVal d)

/-- The five regex capture groups
`(start, stop, channel_start, channel_stop, channel)`. -/
abbrev AnnGroups := Option Nat × Option Nat × Option Nat × Option Nat × Option Nat

/-- Stage of the annotation regex after `[d?:d?,d?:` — the fourth digit
group has been taken; only `]` may remain. -/
def parseStage5 (d1 d2 d3 d4 : List Char) : List Char → Option AnnGroups
  | [']'] => some (optVal d1, optVal d2, optVal d3, optVal d4, none)
  | _ => none

/-- Stage after `[d?:d?,` — the third digit group has been taken; either
a `:` continues a channel range, or `]` closes a bare channel index. -/
def parseStage4 (d1 d2 d3 : List Char) : List Char → Option AnnGroups
  | ':' :: r6 => parseStage5 d1 d2 d3 (takeDigits r6).1 (takeDigits r6).2
  | [']'] => some (optVal d1, optVal d2, none, none, optVal d3)
  | _ => none

/-- Stage after `[d?:` — the second digit group has been taken; either
`]` closes the annotation or `,` starts the channel part. -/
def parseStage3 (d1 d2 : List Char) : List Char → Option AnnGroups
  | [']'] => some (optVal d1, optVal d2, none, none, none)
  | ',' :: r4 => parseStage4 d1 d2 (takeDigits r4).1 (takeDigits r4).2
  | _ => none

/-- Stage after `[` — the first digit group has been taken; a `:` must
follow. -/
def parseStage2 (d1 : List Char) : List Char → Option AnnGroups
  | ':' :: r2 => parseStage3 d1 (takeDigits r2).1 (takeDigits r2).2
  | _ => none

/-- `re.fullmatch(_PATTERN, s).groups()` for the slice-annotation pattern
`\[(\d+)?:(\d+)?(?:,(?:(\d+)?:(\d+)?|(\d+)?))?\]`, returning the five
capture groups or `none` when the string does not match.  The regex is
deterministic after maximal-munch digit runs, because every digit run is
followed by a non-digit, so this staged parser matches the backtracking
semantics of `re.fullmatch`. -/
def parseAnn : List Char → Option AnnGroups
  | '[' :: r0 => parseStage2 (takeDigits r0).1 (takeDigits r0).2
  | _ => none

/-- `_parse_audio_slice(path, start, stop, channel)`.  The caller-supplied
window parameters must be at their defaults; the path is split at the
last `"::"`, the annotation must contain no space character, and the
groups of the slice grammar become `(path, start, stop, channel)` with a
missing start defaulting to `0`. -/
def _parse_audio_slice (path : String) (start : ℚ) (stop : Option ℚ)
    (channel : Option Channel) :
    Except PyErr (String × ℚ × Option ℚ × Option Channel) :=
  if start ≠ 0 then .error .assertionError
  else if stop ≠ none then .error .assertionError
  else if channel ≠ none then .error .assertionError
  else
    match rsplitDC path.data with
    | none => .error (.valueError "not enough values to unpack")
    | some (p, ann) =>
      if ' ' ∈ ann then .error .assertionError
      else
        match parseAnn ann with
        | none => .error (.valueErrorFrom path)
        | some (s, st, cs, cst, ci) =>
          let chan : Option Channel :=
            match ci with
            | some i => some (.index (Int.ofNat i))
            | none =>
              if cs = none ∧ cst = none then none
              else some (.slc (cs.map Int.ofNat) (cst.map Int.ofNat))
          .ok (⟨p⟩, ((s.getD 0 : Nat) : ℚ), st.map (fun n => ((n : Nat) : ℚ)), chan)

/-- `int(np.round(q))`: round half to even; the outer `int` is exact on
the already-integral result. -/
def npRound (q : ℚ) : Int :=
  let n := ⌊q⌋
  let r := q - n
  if r < 1 / 2 then n
  else if 1 / 2 < r then n + 1
  else if n % 2 = 0 then n else n + 1

/-- Interpret a Python number as an `int` where CPython requires one
(slice bounds, array dimensions); non-integral values have no
interpretation and trigger a `TypeError` at the call site. -/
def ratInt? (q : ℚ) : Option Int :=
  if q.den = 1 then some q.num else none

/-- `soundfile.SoundFile(path)`: opening a missing or unreadable file
raises a `RuntimeError`. -/
def sfOpen (fs : FS) (path : String) : Except PyErr AudioFile :=
  match fs path with
  | some f => .ok f
  | none => .error (.runtimeError ("Error opening " ++ path))

/-- The unit-resolution step of `load_audio` (lines 189-204): `samples`
passes everything through; `seconds` opens the file for its sample rate
only and independently rounds `start`, a positive `frames`, and a
positive `stop`; any other unit raises `ValueError(unit)`. -/
def resolveUnit (fs : FS) (path : String) (unit : String) (start : ℚ)
    (stop : Option ℚ) (frames : ℚ) : Except PyErr (ℚ × Option ℚ × ℚ) := do
  if unit = "samples" then
    pure (start, stop, frames)
  else if unit = "seconds" then do
    (match stop with
     | some q => if q < 0 then throw PyErr.notImplementedError else pure ()
     | none => pure ())
    let f ← sfOpen fs path
    let sr : ℚ := (f.samplerate : ℚ)
    pure (((npRound (start * sr) : Int) : ℚ),
          stop.map (fun q => if 0 < q then ((npRound (q * sr) : Int) : ℚ) else q),
          if 0 < frames then ((npRound (frames * sr) : Int) : ℚ) else frames)
  else throw (.valueError unit)

/-- Python `slice.indices` clamping of one bound for step 1. -/
def pySliceIdx (i : Int) (n : Nat) : Nat :=
  if i < 0 then ((n : Int) + i).toNat else min i.toNat n

/-- `SoundFile._prepare_read(start, stop, frames)`: rejects `frames >= 0`
together with `stop`, clamps the window via `slice(start, stop).indices`,
replaces a negative `frames` by the window length, and seeks to the
clamped start.  Returns the seek position and the frame count. -/
def _prepare_read (total : Nat) (start : ℚ) (stop : Option ℚ) (frames : ℚ) :
    Except PyErr (Nat × ℚ) := do
  if 0 ≤ frames ∧ stop ≠ none then
    throw (.typeError "Only one of frames and stop may be used")
  let s ← (match ratInt? start with
    | some i => pure i
    | none => throw (PyErr.typeError "slice indices must be integers"))
  let st ← (match stop with
    | none => pure (none : Option Int)
    | some q =>
      match ratInt? q with
      | some i => pure (some i)
      | none => throw (PyErr.typeError "slice indices must be integers"))
  let a := pySliceIdx s total
  let b0 := (match st with
    | none => total
    | some i => pySliceIdx i total)
  let b := max a b0
  pure (a, if frames < 0 then (((b - a : Nat) : Nat) : ℚ) else frames)

/-- `SoundFile.read(frames, dtype, fill_value, always_2d)` after a seek to
`seek`: `_check_frames` replaces a negative request, or an over-long
request without fill value, by the remaining frame count; the output
buffer is created with the requested length (which must be an integer),
truncated to the frames actually read when no fill value is given, and
topped up with the fill value otherwise.  A mono file yields a
one-dimensional array unless `always_2d`. -/
def sfRead (f : AudioFile) (seek : Nat) (frames : ℚ) (fill : Option ℚ)
    (always2d : Bool) : Except PyErr NDArr := do
  let remaining : Nat := f.frames - seek
  let frames := if frames < 0 ∨ ((remaining : ℚ) < frames ∧ fill = none)
    then ((remaining : Nat) : ℚ) else frames
  let n ← (match ratInt? frames with
    | some i => pure i.toNat
    | none => throw (PyErr.typeError "expected an integer number of frames"))
  let ar := min n remaining
  let outLen := (match fill with
    | none => ar
    | some _ => n)
  let entry : Nat → Nat → ℚ := fun t c =>
    if t < ar then f.sample c (seek + t) else fill.getD 0
  if always2d ∨ f.channels ≠ 1 then
    pure ⟨[outLen, f.channels], grid outLen f.channels entry⟩
  else
    pure ⟨[outLen], (List.range outLen).map (fun t => entry t 0)⟩

/-- `pathlib.Path(path).suffix`. -/
def pySuffix (path : String) : String :=
  let name := (path.data.reverse.takeWhile (fun c => c ≠ '/')).reverse
  let ext := name.reverse.takeWhile (fun c => c ≠ '.')
  if 0 < ext.length ∧ ext.length + 1 < name.length then ⟨'.' :: ext.reverse⟩
  else ""

/-- The decode step of `load_audio` (the body of the `try` block): a
`.m4a` suffix routes to the audioread path, which requires a whole-file
window and concatenates the interleaved int16 buffers scaled by
`1/32768` into a one-dimensional signal; everything else opens the file
with soundfile, resolves `dtype=None` from the subtype via the
`Dispatcher` lookup (value quantization itself is not modeled), prepares
the read window and reads.  Returns the signal and the sample rate. -/
def decode (fs : FS) (path : String) (start : ℚ) (stop : Option ℚ)
    (frames : ℚ) (dtype : Option DType) (fill : Option ℚ) (always2d : Bool) :
    Except PyErr (NDArr × Nat) := do
  if pySuffix path = ".m4a" then do
    if ¬(start = 0 ∧ stop = none) then throw PyErr.assertionError
    let f ← (match fs path with
      | some f => pure f
      | none => throw (PyErr.osError ("No such file: " ++ path)))
    pure (⟨[f.frames * f.channels],
           (List.range (f.frames * f.channels)).map
             (fun i => f.sample (i % f.channels) (i / f.channels) * (1 / 32768))⟩,
          f.samplerate)
  else do
    let f ← sfOpen fs path
    (match dtype, f.subtype with
     | some _, _ => pure ()
     | none, .pcm16 => pure ()
     | none, .float => pure ()
     | none, .double => pure ()
     | none, .other => throw PyErr.keyError)
    let sf ← _prepare_read f.frames start stop frames
    let data ← sfRead f sf.1 sf.2 fill always2d
    pure (data, f.samplerate)

/-- The `except RuntimeError` handler of `load_audio`: re-raises a decode
`RuntimeError` enriched with a file-type probe (the probe text itself is
not modeled), distinguishing `.wav` files from wrong suffixes. -/
def wrapDecode (path : String) (r : Except PyErr (NDArr × Nat)) :
    Except PyErr (NDArr × Nat) :=
  match r with
  | .error (.runtimeError _) =>
    if pySuffix path = ".wav" then
      .error (.runtimeError ("Could not read " ++ path))
    else
      .error (.runtimeError ("Wrong suffix " ++ pySuffix path ++ " in " ++ path))
  | r => r

/-- Result of `load_audio`: the signal, optionally paired with the sample
rate when `return_sample_rate=True`. -/
inductive LoadResult where
  | signal (a : NDArr)
  | withRate (a : NDArr) (sr : Nat)
deriving DecidableEq

/-- `signal[channel, ]` on a two-dimensional `(channels, samples)` array:
an integer index selects one row (with Python negative indexing, raising
`IndexError` out of range), a slice selects a clamped row range, and an
index list selects rows fancy-indexing style.  The caller has already
asserted `ndim == 2`. -/
def selectChannels (a : NDArr) (ch : Channel) : Except PyErr NDArr :=
  match a.shape with
  | [c0, l0] =>
    (match ch with
     | .index i =>
       if -(c0 : Int) ≤ i ∧ i < (c0 : Int) then
         let j := (if i < 0 then i + c0 else i).toNat
         .ok ⟨[l0], (List.range l0).map (fun t => a.at2 j t)⟩
       else .error .indexError
     | .slc lo hi =>
       let s := pySliceIdx (lo.getD 0) c0
       let e := max s (match hi with
         | none => c0
         | some h => pySliceIdx h c0)
       .ok ⟨[e - s, l0], grid (e - s) l0 (fun r t => a.at2 (s + r) t)⟩
     | .idxList l =>
       if l.all (fun i => decide (-(c0 : Int) ≤ i ∧ i < (c0 : Int))) then
         .ok ⟨[l.length, l0],
              grid l.length l0 (fun r t =>
                a.at2 (if l.getD r 0 < 0 then l.getD r 0 + c0 else l.getD r 0).toNat t)⟩
       else .error .indexError)
  | _ => .error .assertionError

/-- Whether a channel selection applies to a `c0`-channel signal without
an `IndexError` (slices never raise; indices and index lists must be in
range). -/
def chanValid (ch : Channel) (c0 : Nat) : Bool :=
  match ch with
  | .index i => decide (-(c0 : Int) ≤ i ∧ i < (c0 : Int))
  | .slc _ _ => true
  | .idxList l => l.all (fun i => decide (-(c0 : Int) ≤ i ∧ i < (c0 : Int)))

/-- Number of rows a valid channel selection keeps out of `c0` channels
(a bare index keeps one row, dropping the axis). -/
def selRows (ch : Channel) (c0 : Nat) : Nat :=
  match ch with
  | .index _ => 1
  | .slc lo hi =>
    let s := pySliceIdx (lo.getD 0) c0
    max s (match hi with
      | none => c0
      | some h => pySliceIdx h c0) - s
  | .idxList l => l.length

/-- Element count of the array produced by a valid channel selection on a
`(c0, l0)` signal. -/
def selSize (ch : Channel) (c0 l0 : Nat) : Nat :=
  match ch with
  | .index _ => l0
  | _ => selRows ch c0 * l0

/-- `load_audio` after the slice annotation (if any) has been folded into
the parameters: unit resolution, decode with the `RuntimeError` wrapper,
the expected-sample-rate check, the transpose to `(channels, samples)`,
channel selection with the emptiness check, and the optional sample-rate
return. -/
def loadAudioResolved (fs : FS) (path : String) (frames start : ℚ)
    (stop : Option ℚ) (channel : Option Channel) (dtype : Option DType)
    (fill : Option ℚ) (esr : Option Nat) (unit : String) (rsr : Bool) :
    Except PyErr LoadResult := do
  let r ← resolveUnit fs path unit start stop frames
  let d ← wrapDecode path (decode fs path r.1 r.2.1 r.2.2 dtype fill channel.isSome)
  let signal0 := d.1
  let srate := d.2
  (match esr with
   | some r => if r ≠ srate then throw (PyErr.valueErrorSampleRate r srate) else pure ()
   | none => pure ())
  let signal1 := signal0.T
  let signal2 ← (match channel with
    | none => pure signal1
    | some ch => do
      if signal1.ndim ≠ 2 then throw PyErr.assertionError
      let s ← selectChannels signal1 ch
      if s.size = 0 then throw (PyErr.valueError "Returned signal would be empty")
      pure s)
  if rsr then pure (.withRate signal2 srate) else pure (.signal signal2)

/-- `load_audio(path, frames, start, stop, channel, dtype, fill_value,
expected_sample_rate, unit, return_sample_rate)`.  `normalize_path` on a
plain string is modeled as the identity.  A path containing `"::"` must
come with default `unit` and `frames` and is parsed by
`_parse_audio_slice`, which itself asserts default `start`, `stop` and
`channel`. -/
def load_audio (fs : FS) (path : String) (frames start : ℚ)
    (stop : Option ℚ) (channel : Option Channel) (dtype : Option DType)
    (fill : Option ℚ) (esr : Option Nat) (unit : String) (rsr : Bool) :
    Except PyErr LoadResult := do
  if containsDC path.data then do
    if unit ≠ "samples" then throw PyErr.assertionError
    if frames ≠ -1 then throw PyErr.assertionError
    let p ← _parse_audio_slice path start stop channel
    loadAudioResolved fs p.1 frames p.2.1 p.2.2.1 p.2.2.2 dtype fill esr unit rsr
  else
    loadAudioResolved fs path frames start stop channel dtype fill esr unit rsr

/-- Nested input structure accepted by `recursive_load_audio`: a path
leaf, an ordered sequence, or a key-value mapping. -/
inductive PathTree where
  | leaf : String → PathTree
  | node : List PathTree → PathTree
  | dict : List (String × PathTree) → PathTree

/-- Result structure of `recursive_load_audio`: an array, an
`(array, sample_rate)` pair, a list, or a dict. -/
inductive AudioData where
  | arr : NDArr → AudioData
  | pair : NDArr → Nat → AudioData
  | seq : List AudioData → AudioData
  | dictData : List (String × AudioData) → AudioData

/-- The array content of a loaded leaf, when it is a bare array. -/
def arrOf : AudioData → Option NDArr
  | .arr a => some a
  | _ => none

/-- The shape of a loaded leaf, when it is a bare array. -/
def shapeOf : AudioData → Option (List Nat)
  | .arr a => some a.shape
  | _ => none

/-- The flat data of a loaded leaf (empty for non-arrays). -/
def dataOf : AudioData → List ℚ
  | .arr a => a.data
  | _ => []

/-- All entries as arrays, or `none` if some entry is not a bare array. -/
def allArrs : List AudioData → Option (List NDArr)
  | [] => some []
  | d :: rest =>
    match arrOf d, allArrs rest with
    | some a, some l => some (a :: l)
    | _, _ => none

/-- Concatenation of the per-entry flat data. -/
def flatQ : List (List ℚ) → List ℚ
  | [] => []
  | l :: rest => l ++ flatQ rest

/-- `np.array(data)` for a list of recursively loaded results, succeeding
with a numeric (non-object) array exactly when every entry is an array
and all shapes agree (then the entries are stacked along a new leading
axis; the empty list gives the numeric empty float array of shape
`(0,)`).  Tuples, dicts, leftover lists and ragged shapes produce an
object array or a `ValueError`, both of which make
`recursive_load_audio` keep the list. -/
def tryStack (l : List AudioData) : Option NDArr :=
  match allArrs l with
  | none => none
  | some [] => some ⟨[0], []⟩
  | some (a :: rest) =>
    if rest.all (fun b => decide (b.shape = a.shape)) then
      some ⟨(a :: rest).length :: a.shape, flatQ ((a :: rest).map NDArr.data)⟩
    else none

mutual

/-- `recursive_load_audio(path, **kwargs)`: loads every leaf with the same
keyword parameters (note the signature has no `channel`, so leaves are
loaded with `channel=None`), converts sequences to a stacked array when
`np.array` yields a non-object dtype, and maps over dict values. -/
def recursive_load_audio (fs : FS) (t : PathTree) (frames start : ℚ)
    (stop : Option ℚ) (dtype : Option DType) (fill : Option ℚ)
    (esr : Option Nat) (unit : String) (rsr : Bool) :
    Except PyErr AudioData :=
  match t with
  | .leaf p =>
    (match load_audio fs p frames start stop none dtype fill esr unit rsr with
     | .error e => .error e
     | .ok (.signal a) => .ok (.arr a)
     | .ok (.withRate a sr) => .ok (.pair a sr))
  | .node ts =>
    (match recLoadList fs ts frames start stop dtype fill esr unit rsr with
     | .error e => .error e
     | .ok ds =>
       match tryStack ds with
       | some a => .ok (.arr a)
       | none => .ok (.seq ds))
  | .dict kvs =>
    (match recLoadDict fs kvs frames start stop dtype fill esr unit rsr with
     | .error e => .error e
     | .ok rs => .ok (.dictData rs))

/-- Recursive loading of the entries of a sequence, in order. -/
def recLoadList (fs : FS) (ts : List PathTree) (frames start : ℚ)
    (stop : Option ℚ) (dtype : Option DType) (fill : Option ℚ)
    (esr : Option Nat) (unit : String) (rsr : Bool) :
    Except PyErr (List AudioData) :=
  match ts with
  | [] => .ok []
  | t :: rest =>
    (match recursive_load_audio fs t frames start stop dtype fill esr unit rsr with
     | .error e => .error e
     | .ok d =>
       match recLoadList fs rest frames start stop dtype fill esr unit rsr with
       | .error e => .error e
       | .ok ds => .ok (d :: ds))

/-- Recursive loading of the values of a mapping, preserving keys. -/
def recLoadDict (fs : FS) (kvs : List (String × PathTree)) (frames start : ℚ)
    (stop : Option ℚ) (dtype : Option DType) (fill : Option ℚ)
    (esr : Option Nat) (unit : String) (rsr : Bool) :
    Except PyErr (List (String × AudioData)) :=
  match kvs with
  | [] => .ok []
  | kv :: rest =>
    (match recursive_load_audio fs kv.2 frames start stop dtype fill esr unit rsr with
     | .error e => .error e
     | .ok d =>
       match recLoadDict fs rest frames start stop dtype fill esr unit rsr with
       | .error e => .error e
       | .ok ds => .ok ((kv.1, d) :: ds))

end

/-- Conversion of a `load_audio` result into an `AudioData` leaf. -/
def loadConv : LoadResult → AudioData
  | .signal a => .arr a
  | .withRate a sr => .pair a sr

/-- Surface form of a slice annotation: optional digit strings for the
sample bounds and an optional channel part. -/
inductive ChanPart where
  | bare : Option (List Char) → ChanPart
  | rng : Option (List Char) → Option (List Char) → ChanPart

/-- Surface form of a slice annotation (the two sample groups and the
channel part). -/
structure SliceAnn where
  first : Option (List Char)
  second : Option (List Char)
  chan : Option ChanPart

/-- An optional group is well-formed when present groups are nonempty
digit strings. -/
def goodOpt (o : Option (List Char)) : Prop :=
  ∀ d ∈ o, d ≠ [] ∧ ∀ c ∈ d, c.isDigit = true

/-- Well-formedness of the channel part. -/
def goodChan : Option ChanPart → Prop
  | none => True
  | some (.bare i) => goodOpt i
  | some (.rng lo hi) => goodOpt lo ∧ goodOpt hi

/-- Well-formedness of a surface annotation. -/
def goodAnn (a : SliceAnn) : Prop :=
  goodOpt a.first ∧ goodOpt a.second ∧ goodChan a.chan

/-- Render an optional digit group. -/
def renderOpt : Option (List Char) → List Char
  | none => []
  | some d => d

/-- Render the channel part (with its leading comma). -/
def renderChan : Option ChanPart → List Char
  | none => []
  | some (.bare i) => ',' :: renderOpt i
  | some (.rng lo hi) => ',' :: (renderOpt lo ++ ':' :: renderOpt hi)

/-- Render a surface annotation to its textual form
`[start:stop]`, `[start:stop,c]` or `[start:stop,lo:hi]`. -/
def renderAnn (a : SliceAnn) : List Char :=
  '[' :: (renderOpt a.first ++ ':' :: (renderOpt a.second ++ renderChan a.chan ++ [']']))

/-- The channel selection `_parse_audio_slice` produces for a surface
annotation: a bare digit group becomes a single index, a range with at
least one bound becomes a slice, everything else stays `None`. -/
def annChan (a : SliceAnn) : Option Channel :=
  match a.chan with
  | none => none
  | some (.bare none) => none
  | some (.bare (some d)) => some (.index (Int.ofNat (digitsVal d)))
  | some (.rng lo hi) =>
    if lo = none ∧ hi = none then none
    else some (.slc ((lo.map digitsVal).map Int.ofNat) ((hi.map digitsVal).map Int.ofNat))

/-- Example files used to witness the theorems on concrete inputs. -/
def fileA : AudioFile := ⟨16000, 1, 2, .double, fun _ t => (t : ℚ)⟩

/-- A mono file with a different length than `fileA`. -/
def fileB : AudioFile := ⟨16000, 1, 3, .double, fun _ t => (t : ℚ) + 7⟩

/-- A two-channel file. -/
def fileM : AudioFile := ⟨16000, 2, 3, .double, fun c t => (c : ℚ) * 10 + (t : ℚ)⟩

/-- A mono file with zero frames. -/
def fileZ : AudioFile := ⟨16000, 1, 0, .double, fun _ _ => 0⟩

/-- The example file system. -/
def fsEx : FS := fun p =>
  if p = "a.wav" then some fileA
  else if p = "b.wav" then some fileB
  else if p = "m.wav" then some fileM
  else if p = "z.wav" then some fileZ
  else none

/-! ## Generic helper lemmas -/

theorem ebind_ok {α β : Type} (a : α) (f : α → Except PyErr β) :
    (Except.ok a >>= f) = f a := rfl

theorem ebind_err {α β : Type} (e : PyErr) (f : α → Except PyErr β) :
    ((Except.error e : Except PyErr α) >>= f) = .error e := rfl

theorem epure {α : Type} (a : α) : (pure a : Except PyErr α) = .ok a := rfl

theorem bind_ne_error {α β : Type} {e : Except PyErr α} {f : α → Except PyErr β}
    {x : PyErr} (he : e ≠ .error x) (hf : ∀ a, f a ≠ .error x) :
    (e >>= f) ≠ .error x := by
  cases e with
  | error e0 =>
    rw [ebind_err]
    intro hcon
    injection hcon with h0
    exact he (by rw [h0])
  | ok a =>
    rw [ebind_ok]
    exact hf a

theorem ethrow {α : Type} (e : PyErr) : (throw e : Except PyErr α) = .error e := rfl

theorem containsDC_of_rsplit (l : List Char) :
    ∀ pr, rsplitDC l = some pr → containsDC l = true := by
  induction l with
  | nil => intro pr h; simp [rsplitDC] at h
  | cons c cs ih =>
    intro pr h
    rw [rsplitDC] at h
    rw [containsDC, Bool.or_eq_true]
    cases hr : rsplitDC cs with
    | some pr' => exact Or.inr (ih pr' hr)
    | none =>
      rw [hr] at h
      simp only at h
      by_cases hs : startsDC (c :: cs) = true
      · exact Or.inl hs
      · rw [if_neg hs] at h
        exact absurd h (by simp)

theorem bind_ne_error2 {α β : Type} {e : Except PyErr α} {f : α → Except PyErr β}
    {x : PyErr} (he : e ≠ .error x) (hf : ∀ a, e = .ok a → f a ≠ .error x) :
    (e >>= f) ≠ .error x := by
  cases e with
  | error e0 =>
    rw [ebind_err]
    intro hcon
    injection hcon with h0
    exact he (by rw [h0])
  | ok a =>
    rw [ebind_ok]
    exact hf a rfl

theorem getD_range_map (f : Nat → ℚ) (n i : Nat) (h : i < n) :
    ((List.range n).map f).getD i 0 = f i := by
  rw [List.getD_eq_getElem?_getD, List.getElem?_map, List.getElem?_range h]
  rfl

theorem gridFrom_length (n : Nat) (f : Nat → Nat → ℚ) (m : Nat) :
    ∀ i0, (gridFrom n f i0 m).length = m * n := by
  induction m with
  | zero => intro i0; simp [gridFrom]
  | succ k ih =>
    intro i0
    simp [gridFrom, ih]
    ring

theorem gridFrom_getD (n : Nat) (f : Nat → Nat → ℚ) (m : Nat) :
    ∀ i0 i j, i < m → j < n →
      (gridFrom n f i0 m).getD (i * n + j) 0 = f (i0 + i) j := by
  induction m with
  | zero =>
    intro i0 i j hi _
    omega
  | succ k ih =>
    intro i0 i j hi hj
    cases i with
    | zero =>
      have hlen : j < ((List.range n).map (f i0)).length := by
        simpa using hj
      rw [gridFrom, Nat.zero_mul, Nat.zero_add, List.getD_append _ _ _ _ hlen]
      simpa using getD_range_map (f i0) n j hj
    | succ i' =>
      have hlen : ((List.range n).map (f i0)).length ≤ (i' + 1) * n + j := by
        simp
        calc n ≤ (i' + 1) * n := Nat.le_mul_of_pos_left n (Nat.succ_pos i')
        _ ≤ (i' + 1) * n + j := Nat.le_add_right _ _
      rw [gridFrom, List.getD_append_right _ _ _ _ hlen]
      have hidx : (i' + 1) * n + j - ((List.range n).map (f i0)).length = i' * n + j := by
        simp
        ring_nf
        omega
      rw [hidx, ih (i0 + 1) i' j (by omega) hj]
      congr 1
      omega

theorem at2_mk (m n : Nat) (f : Nat → Nat → ℚ) (i j : Nat) (hi : i < m) (hj : j < n) :
    (NDArr.mk [m, n] (grid m n f)).at2 i j = f i j := by
  simp only [NDArr.at2, grid, List.getD]
  simpa using gridFrom_getD n f m 0 i j hi hj

theorem at1_mk (l : List ℚ) (i : Nat) (s : List Nat) :
    (NDArr.mk s l).at1 i = l.getD i 0 := rfl

/-! ## Digit and annotation parsing lemmas -/

theorem takeDigits_append (ds : List Char) (hd : ∀ c ∈ ds, c.isDigit = true)
    (c : Char) (hc : c.isDigit = false) (rest : List Char) :
    takeDigits (ds ++ c :: rest) = (ds, c :: rest) := by
  induction ds with
  | nil =>
    simp [takeDigits, List.takeWhile, List.dropWhile, hc]
  | cons d ds ih =>
    have hd0 : d.isDigit = true := hd d (List.mem_cons_self d ds)
    have hrec := ih (fun c hc0 => hd c (List.mem_cons_of_mem d hc0))
    have h1 : ((ds ++ c :: rest).takeWhile Char.isDigit) = ds := congrArg Prod.fst hrec
    have h2 : ((ds ++ c :: rest).dropWhile Char.isDigit) = c :: rest := congrArg Prod.snd hrec
    simp [takeDigits, List.takeWhile_cons, List.dropWhile_cons, hd0, h1, h2]

theorem optVal_renderOpt (o : Option (List Char)) (h : goodOpt o) :
    optVal (renderOpt o) = o.map digitsVal := by
  cases o with
  | none => rfl
  | some d =>
    have hne : d ≠ [] := (h d rfl).1
    simp [renderOpt, optVal, hne]

theorem renderOpt_digits (o : Option (List Char)) (h : goodOpt o) :
    ∀ c ∈ renderOpt o, c.isDigit = true := by
  cases o with
  | none => intro c hc; simp [renderOpt] at hc
  | some d => intro c hc; exact (h d rfl).2 c hc

theorem space_not_in_renderAnn (a : SliceAnn) (h : goodAnn a) :
    ¬ (' ' ∈ renderAnn a) := by
  intro hmem
  obtain ⟨h1, h2, h3⟩ := h
  have hdig : ∀ (o : Option (List Char)), goodOpt o → ' ' ∈ renderOpt o → False := by
    intro o ho hmo
    have := renderOpt_digits o ho ' ' hmo
    simp at this
  simp only [renderAnn, List.mem_cons, List.mem_append] at hmem
  rcases hmem with h0 | hmem
  · exact absurd h0 (by decide)
  rcases hmem with hmem | hmem
  · exact hdig a.first h1 hmem
  rcases hmem with h0 | hmem
  · exact absurd h0 (by decide)
  rcases hmem with hmem | hmem
  · rcases hmem with hmem | hmem
    · exact hdig a.second h2 hmem
    · cases hchan : a.chan with
      | none => rw [hchan] at hmem; simp [renderChan] at hmem
      | some cp =>
        rw [hchan] at hmem
        cases cp with
        | bare i =>
          simp only [renderChan, List.mem_cons] at hmem
          rcases hmem with h0 | hmem
          · exact absurd h0 (by decide)
          · rw [hchan] at h3; exact hdig i h3 hmem
        | rng lo hi =>
          rw [hchan] at h3
          simp only [renderChan, List.mem_cons, List.mem_append] at hmem
          rcases hmem with h0 | hmem
          · exact absurd h0 (by decide)
          rcases hmem with hmem | hmem
          · exact hdig lo h3.1 hmem
          rcases hmem with h0 | hmem
          · exact absurd h0 (by decide)
          · exact hdig hi h3.2 hmem
  · simp at hmem

theorem parseAnn_render_none (a : SliceAnn) (h : goodAnn a) (hch : a.chan = none) :
    parseAnn (renderAnn a) =
      some (a.first.map digitsVal, a.second.map digitsVal, none, none, none) := by
  obtain ⟨h1, h2, _⟩ := h
  simp only [renderAnn, hch, renderChan, List.append_nil]
  rw [parseAnn]
  rw [takeDigits_append (renderOpt a.first) (renderOpt_digits a.first h1) ':' (by decide)]
  rw [parseStage2]
  rw [takeDigits_append (renderOpt a.second) (renderOpt_digits a.second h2) ']' (by decide)]
  rw [parseStage3]
  rw [optVal_renderOpt a.first h1, optVal_renderOpt a.second h2]

theorem parseAnn_render_bare (a : SliceAnn) (h : goodAnn a) (i : Option (List Char))
    (hch : a.chan = some (.bare i)) :
    parseAnn (renderAnn a) =
      some (a.first.map digitsVal, a.second.map digitsVal, none, none, i.map digitsVal) := by
  obtain ⟨h1, h2, h3⟩ := h
  rw [hch] at h3
  simp only [renderAnn, hch, renderChan, List.cons_append, List.append_assoc]
  rw [parseAnn]
  rw [takeDigits_append (renderOpt a.first) (renderOpt_digits a.first h1) ':' (by decide)]
  rw [parseStage2]
  rw [takeDigits_append (renderOpt a.second) (renderOpt_digits a.second h2) ',' (by decide)]
  rw [parseStage3]
  rw [takeDigits_append (renderOpt i) (renderOpt_digits i h3) ']' (by decide)]
  rw [parseStage4]
  rw [optVal_renderOpt a.first h1, optVal_renderOpt a.second h2, optVal_renderOpt i h3]

theorem parseAnn_render_rng (a : SliceAnn) (h : goodAnn a) (lo hi : Option (List Char))
    (hch : a.chan = some (.rng lo hi)) :
    parseAnn (renderAnn a) =
      some (a.first.map digitsVal, a.second.map digitsVal,
        lo.map digitsVal, hi.map digitsVal, none) := by
  obtain ⟨h1, h2, h3⟩ := h
  rw [hch] at h3
  simp only [renderAnn, hch, renderChan, List.cons_append, List.append_assoc]
  rw [parseAnn]
  rw [takeDigits_append (renderOpt a.first) (renderOpt_digits a.first h1) ':' (by decide)]
  rw [parseStage2]
  rw [takeDigits_append (renderOpt a.second) (renderOpt_digits a.second h2) ',' (by decide)]
  rw [parseStage3]
  rw [takeDigits_append (renderOpt lo) (renderOpt_digits lo h3.1) ':' (by decide)]
  rw [parseStage4]
  rw [takeDigits_append (renderOpt hi) (renderOpt_digits hi h3.2) ']' (by decide)]
  rw [parseStage5]
  rw [optVal_renderOpt a.first h1, optVal_renderOpt a.second h2,
    optVal_renderOpt lo h3.1, optVal_renderOpt hi h3.2]

/-! ## Pipeline evaluation lemmas -/

theorem ratInt?_natCast (n : Nat) : ratInt? ((n : ℚ)) = some ((n : Int)) := by
  simp [ratInt?, Rat.den_natCast, Rat.num_natCast]

theorem pySliceIdx_natCast (n total : Nat) : pySliceIdx ((n : Int)) total = min n total := by
  simp [pySliceIdx, Int.toNat_natCast]

theorem prepare_whole (total : Nat) :
    _prepare_read total 0 none (-1) = .ok (0, ((total : Nat) : ℚ)) := by
  simp only [_prepare_read]
  rw [if_neg (by norm_num)]
  rw [show ratInt? 0 = some 0 from by decide]
  simp only [epure, ebind_ok]
  rw [if_pos (by norm_num : (-1 : ℚ) < 0)]
  have h0 : pySliceIdx 0 total = 0 := by simp [pySliceIdx]
  rw [h0]
  have h1 : (0 ⊔ total) - 0 = total := by omega
  rw [h1]

theorem read_whole (f : AudioFile) (a2 : Bool) :
    sfRead f 0 ((f.frames : ℚ)) none a2 =
      .ok (if a2 = true ∨ f.channels ≠ 1
        then ⟨[f.frames, f.channels],
              grid f.frames f.channels (fun t c => if t < f.frames then f.sample c (0 + t) else 0)⟩
        else ⟨[f.frames],
              (List.range f.frames).map (fun t => if t < f.frames then f.sample 0 (0 + t) else 0)⟩) := by
  simp only [sfRead, Nat.sub_zero]
  rw [if_neg (by simp)]
  rw [ratInt?_natCast]
  simp only [epure, ebind_ok, Int.toNat_natCast, Nat.min_self, Option.getD_none]
  split <;> rfl

theorem load_whole_noChannel (fs : FS) (file : AudioFile) (path : String)
    (hf : fs path = some file) (hdc : containsDC path.data = false)
    (hsuf : pySuffix path ≠ ".m4a") :
    ∃ a, load_audio fs path (-1) 0 none none (some .float64) none none "samples" false =
        .ok (.signal a) ∧
      (if file.channels = 1
       then a.shape = [file.frames] ∧ ∀ t, t < file.frames → a.at1 t = file.sample 0 t
       else a.shape = [file.channels, file.frames] ∧
         ∀ c t, c < file.channels → t < file.frames → a.at2 c t = file.sample c t) := by
  simp only [load_audio, hdc, Bool.false_eq_true, if_false, ite_false, loadAudioResolved,
    resolveUnit, if_true, epure, ebind_ok, decode]
  rw [if_neg hsuf]
  simp only [sfOpen, hf, epure, ebind_ok, prepare_whole, read_whole, Option.isSome_none,
    Bool.false_eq_true, false_or, wrapDecode]
  by_cases hc : file.channels = 1
  · rw [if_neg (fun hne => hne hc)]
    refine ⟨_, rfl, ?_⟩
    rw [if_pos hc]
    refine ⟨?_, ?_⟩
    · simp [NDArr.T]
    · intro t ht
      simp [NDArr.T, NDArr.at1, getD_range_map _ _ _ ht, ht]
  · rw [if_pos hc]
    refine ⟨_, rfl, ?_⟩
    rw [if_neg hc]
    refine ⟨?_, ?_⟩
    · simp [NDArr.T]
    · intro c t hcc ht
      simp only [NDArr.T]
      rw [at2_mk _ _ _ c t hcc ht]
      rw [at2_mk _ _ _ t c ht hcc]
      simp [ht]

theorem load_whole_indexChannel (fs : FS) (file : AudioFile) (path : String)
    (hf : fs path = some file) (hdc : containsDC path.data = false)
    (hsuf : pySuffix path ≠ ".m4a") (i : Nat) (hi : i < file.channels)
    (hF : 0 < file.frames) :
    ∃ a, load_audio fs path (-1) 0 none (some (.index (Int.ofNat i))) (some .float64)
        none none "samples" false = .ok (.signal a) ∧
      a.shape = [file.frames] ∧ ∀ t, t < file.frames → a.at1 t = file.sample i t := by
  simp only [load_audio, hdc, Bool.false_eq_true, if_false, ite_false, loadAudioResolved,
    resolveUnit, if_true, epure, ebind_ok, decode]
  rw [if_neg hsuf]
  simp only [sfOpen, hf, epure, ebind_ok, prepare_whole, read_whole, Option.isSome_some,
    true_or, if_true, wrapDecode]
  simp only [NDArr.T]
  rw [if_neg (by simp [NDArr.ndim])]
  simp only [epure, ebind_ok, selectChannels, Int.ofNat_eq_coe]
  rw [if_pos (by constructor <;> omega)]
  have hj : (if (i : Int) < 0 then (i : Int) + (file.channels : Int) else (i : Int)).toNat = i := by
    rw [if_neg (by omega)]
    omega
  rw [hj]
  simp only [epure, ebind_ok]
  rw [if_neg (by simp [NDArr.size] ; omega)]
  simp only [epure, ebind_ok]
  refine ⟨_, rfl, rfl, ?_⟩
  intro t ht
  simp only [NDArr.at1]
  rw [getD_range_map _ _ _ ht]
  rw [at2_mk _ _ _ i t hi ht]
  rw [at2_mk _ _ _ t i ht hi]
  simp [ht]

theorem prepare_startFrames (total s k : Nat) (hs : s ≤ total) :
    _prepare_read total ((s : ℚ)) none ((k : ℚ)) = .ok (s, ((k : Nat) : ℚ)) := by
  simp only [_prepare_read]
  rw [if_neg (by simp)]
  rw [ratInt?_natCast]
  simp only [epure, ebind_ok, pySliceIdx_natCast]
  rw [if_neg (not_lt.mpr (by positivity) : ¬ ((k : ℚ) < 0))]
  rw [Nat.min_eq_left hs]

theorem read_over (f : AudioFile) (seek k : Nat) (fill : Option ℚ) (a2 : Bool)
    (hover : f.frames - seek < k) :
    sfRead f seek ((k : ℚ)) fill a2 =
      .ok (if a2 = true ∨ f.channels ≠ 1
        then ⟨[(match fill with | none => f.frames - seek | some _ => k), f.channels],
              grid (match fill with | none => f.frames - seek | some _ => k) f.channels
                (fun t c => if t < f.frames - seek then f.sample c (seek + t) else fill.getD 0)⟩
        else ⟨[(match fill with | none => f.frames - seek | some _ => k)],
              (List.range (match fill with | none => f.frames - seek | some _ => k)).map
                (fun t => if t < f.frames - seek then f.sample 0 (seek + t) else fill.getD 0)⟩) := by
  simp only [sfRead]
  cases fill with
  | none =>
    rw [if_pos (Or.inr ⟨by exact_mod_cast hover, rfl⟩)]
    rw [ratInt?_natCast]
    simp only [epure, ebind_ok, Int.toNat_natCast, Nat.min_self, Option.getD_none]
    split <;> rfl
  | some v =>
    have h1 : ¬ ((k : ℚ) < 0 ∨ (((f.frames - seek : Nat) : ℚ) < (k : ℚ) ∧ (some v = none))) := by
      rintro (h | ⟨_, h⟩)
      · exact absurd h (not_lt.mpr (by positivity))
      · exact Option.noConfusion h
    rw [if_neg h1]
    rw [ratInt?_natCast]
    simp only [epure, ebind_ok, Int.toNat_natCast]
    rw [Nat.min_eq_right (Nat.le_of_lt hover)]
    split <;> rfl

theorem select_spec (a : NDArr) (c0 l0 : Nat) (hsh : a.shape = [c0, l0]) (ch : Channel)
    (hv : chanValid ch c0 = true) :
    ∃ b, selectChannels a ch = .ok b ∧ b.size = selSize ch c0 l0 := by
  cases ch with
  | index i =>
    simp only [selectChannels, hsh]
    rw [if_pos (by simpa [chanValid] using hv)]
    refine ⟨_, rfl, ?_⟩
    simp [NDArr.size, selSize]
  | slc lo hi =>
    simp only [selectChannels, hsh]
    refine ⟨_, rfl, ?_⟩
    simp [NDArr.size, selSize, selRows]
  | idxList l =>
    simp only [selectChannels, hsh]
    rw [if_pos (by simpa [chanValid] using hv)]
    refine ⟨_, rfl, ?_⟩
    simp [NDArr.size, selSize, selRows]

theorem selSize_zero (ch : Channel) (c0 : Nat) : selSize ch c0 0 = 0 := by
  cases ch <;> simp [selSize]

theorem prepare_emptyWindow (total s : Nat) :
    _prepare_read total ((s : ℚ)) (some ((s : ℚ))) (-1) = .ok (min s total, 0) := by
  simp only [_prepare_read]
  rw [if_neg (by norm_num)]
  rw [ratInt?_natCast]
  simp only [epure, ebind_ok, pySliceIdx_natCast]
  rw [if_pos (by norm_num : (-1 : ℚ) < 0)]
  simp

theorem read_zero (f : AudioFile) (seek : Nat) (a2 : Bool) :
    sfRead f seek 0 none a2 =
      .ok (if a2 = true ∨ f.channels ≠ 1 then ⟨[0, f.channels], []⟩ else ⟨[0], []⟩) := by
  simp only [sfRead]
  rw [if_neg (by norm_num)]
  rw [show ratInt? 0 = some 0 from by decide]
  simp only [epure, ebind_ok]
  split <;> simp [grid, gridFrom, Int.toNat_zero, Nat.zero_min]

theorem parse_no_sr (path : String) (start : ℚ) (stop : Option ℚ)
    (channel : Option Channel) (a b : Nat) :
    _parse_audio_slice path start stop channel ≠ .error (.valueErrorSampleRate a b) := by
  unfold _parse_audio_slice
  repeat' split
  all_goals simp [epure, ethrow]

theorem resolveUnit_no_sr (fs : FS) (path unit : String) (start : ℚ) (stop : Option ℚ)
    (frames : ℚ) (a b : Nat) :
    resolveUnit fs path unit start stop frames ≠ .error (.valueErrorSampleRate a b) := by
  unfold resolveUnit
  split
  · simp [epure]
  · split
    · apply bind_ne_error
      · cases stop with
        | none => simp [epure]
        | some q =>
          repeat' split
          all_goals simp [epure, ethrow]
      intro u
      apply bind_ne_error
      · unfold sfOpen
        cases hfp : fs path <;> simp [hfp, epure, ethrow]
      intro f
      simp [epure]
    · simp [ethrow]

theorem prepare_no_sr (total : Nat) (start : ℚ) (stop : Option ℚ) (frames : ℚ) (a b : Nat) :
    _prepare_read total start stop frames ≠ .error (.valueErrorSampleRate a b) := by
  simp only [_prepare_read]
  split
  · simp [ethrow, ebind_err]
  · simp only [epure, ebind_ok]
    apply bind_ne_error
    · cases hri : ratInt? start <;> simp [hri, epure, ethrow]
    intro s
    apply bind_ne_error
    · cases stop with
      | none => simp [epure]
      | some q => cases hrq : ratInt? q <;> simp [hrq, epure, ethrow]
    intro st
    simp [epure]

theorem read_no_sr (f : AudioFile) (seek : Nat) (frames : ℚ) (fill : Option ℚ)
    (a2 : Bool) (a b : Nat) :
    sfRead f seek frames fill a2 ≠ .error (.valueErrorSampleRate a b) := by
  simp only [sfRead]
  apply bind_ne_error
  · cases hri : ratInt? (if frames < 0 ∨ (((f.frames - seek : Nat) : ℚ) < frames ∧ fill = none)
      then (((f.frames - seek : Nat) : Nat) : ℚ) else frames) <;> simp [hri, epure, ethrow]
  intro n
  split <;> simp [epure]

theorem decode_no_sr (fs : FS) (path : String) (start : ℚ) (stop : Option ℚ)
    (frames : ℚ) (dtype : Option DType) (fill : Option ℚ) (a2 : Bool) (a b : Nat) :
    decode fs path start stop frames dtype fill a2 ≠ .error (.valueErrorSampleRate a b) := by
  unfold decode
  split
  · repeat' split
    all_goals simp [epure, ethrow, ebind_err, ebind_ok]
  · apply bind_ne_error
    · unfold sfOpen
      cases hfp : fs path <;> simp [hfp, epure, ethrow]
    intro f
    apply bind_ne_error
    · repeat' split
      all_goals simp [epure, ethrow]
    intro u
    apply bind_ne_error
    · exact prepare_no_sr _ _ _ _ _ _
    intro sf
    apply bind_ne_error
    · exact read_no_sr _ _ _ _ _ _ _
    intro d
    simp [epure]

theorem wrapDecode_no_sr (path : String) (r : Except PyErr (NDArr × Nat)) (a b : Nat)
    (hr : r ≠ .error (.valueErrorSampleRate a b)) :
    wrapDecode path r ≠ .error (.valueErrorSampleRate a b) := by
  unfold wrapDecode
  split
  · split <;> simp
  · exact hr

theorem select_no_sr (a0 : NDArr) (ch : Channel) (a b : Nat) :
    selectChannels a0 ch ≠ .error (.valueErrorSampleRate a b) := by
  unfold selectChannels
  repeat' split
  all_goals simp [epure, ethrow]

theorem wrapDecode_ok (path : String) (r : Except PyErr (NDArr × Nat)) (d : NDArr × Nat)
    (h : wrapDecode path r = .ok d) : r = .ok d := by
  unfold wrapDecode at h
  revert h
  split
  · split <;> (intro h0; exact absurd h0 (by simp))
  · intro h0
    exact h0

theorem decode_ok_srate (fs : FS) (file : AudioFile) (path : String) (start : ℚ)
    (stop : Option ℚ) (frames : ℚ) (dtype : Option DType) (fill : Option ℚ) (a2 : Bool)
    (d : NDArr × Nat) (hf : fs path = some file)
    (h : decode fs path start stop frames dtype fill a2 = .ok d) :
    d.2 = file.samplerate := by
  unfold decode at h
  revert h
  split
  · simp only [hf, epure, ebind_ok, ebind_err, ethrow]
    split
    · intro h0
      simp at h0
    · intro h0
      injection h0 with h1
      rw [← h1]
  · simp only [sfOpen, hf, epure, ebind_ok, ebind_err, ethrow]
    split
    all_goals
      cases hp : _prepare_read file.frames start stop frames with
      | error e => simp [hp, ebind_ok, ebind_err]
      | ok sf =>
        simp only [hp, ebind_ok]
        cases hr : sfRead file sf.1 sf.2 fill a2 with
        | error e => simp [hr, ebind_ok, ebind_err]
        | ok data =>
          simp only [hr, ebind_ok]
          intro h0
          first
          | (rw [ebind_err] at h0
             exact absurd h0 (by simp))
          | (injection h0 with h1
             rw [← h1])

theorem allArrs_shapes (s : List Nat) :
    ∀ rs : List AudioData, (∀ r ∈ rs, shapeOf r = some s) →
      ∃ l, allArrs rs = some l ∧ l.map NDArr.data = rs.map dataOf ∧
        l.length = rs.length ∧ ∀ x ∈ l, x.shape = s := by
  intro rs
  induction rs with
  | nil =>
    intro _
    exact ⟨[], rfl, rfl, rfl, by intro x hx; simp at hx⟩
  | cons r rest ih =>
    intro hsh
    have hr := hsh r (List.mem_cons_self r rest)
    obtain ⟨l, hl, hdata, hlen, hshl⟩ := ih (fun r' hr' => hsh r' (List.mem_cons_of_mem r hr'))
    cases r with
    | arr a =>
      refine ⟨a :: l, ?_, ?_, ?_, ?_⟩
      · simp [allArrs, arrOf, hl]
      · simp [hdata, dataOf]
      · simp [hlen]
      · intro x hx
        rcases List.mem_cons.mp hx with h0 | h0
        · subst h0
          simpa [shapeOf] using hr
        · exact hshl x h0
    | pair a sr => simp [shapeOf] at hr
    | seq l2 => simp [shapeOf] at hr
    | dictData l2 => simp [shapeOf] at hr

theorem allArrs_mem :
    ∀ (rs : List AudioData) (l : List NDArr), allArrs rs = some l →
      ∀ r ∈ rs, ∃ x, x ∈ l ∧ arrOf r = some x := by
  intro rs
  induction rs with
  | nil =>
    intro l _ r hr
    simp at hr
  | cons r0 rest ih =>
    intro l hl r hr
    rw [allArrs] at hl
    revert hl
    cases ha : arrOf r0 with
    | none => simp
    | some a =>
      cases har : allArrs rest with
      | none => simp
      | some l2 =>
        simp only
        intro hl
        injection hl with hl2
        subst hl2
        rcases List.mem_cons.mp hr with h0 | h0
        · subst h0
          exact ⟨a, List.mem_cons_self a l2, ha⟩
        · obtain ⟨x, hx1, hx2⟩ := ih l2 har r h0
          exact ⟨x, List.mem_cons_of_mem a hx1, hx2⟩

theorem tryStack_some (rs : List AudioData) (s : List Nat)
    (hne : rs ≠ []) (hsh : ∀ r ∈ rs, shapeOf r = some s) :
    tryStack rs = some ⟨rs.length :: s, flatQ (rs.map dataOf)⟩ := by
  obtain ⟨l, hl, hdata, hlen, hshl⟩ := allArrs_shapes s rs hsh
  rw [tryStack, hl]
  cases l with
  | nil =>
    exfalso
    apply hne
    cases rs with
    | nil => rfl
    | cons r rest => simp at hlen
  | cons a l2 =>
    have hall : l2.all (fun b => decide (b.shape = a.shape)) = true := by
      rw [List.all_eq_true]
      intro b hb
      have h1 := hshl b (List.mem_cons_of_mem a hb)
      have h2 := hshl a (List.mem_cons_self a l2)
      simp [h1, h2]
    simp only [hall, if_true]
    have hsa : a.shape = s := hshl a (List.mem_cons_self a l2)
    rw [hsa]
    rw [show (a :: l2).length = rs.length from hlen]
    rw [show (a :: l2).map NDArr.data = rs.map dataOf from hdata]

theorem tryStack_none (rs : List AudioData) (hne : rs ≠ [])
    (hno : ¬ ∃ s, ∀ r ∈ rs, shapeOf r = some s) : tryStack rs = none := by
  cases ht : tryStack rs with
  | none => rfl
  | some b =>
    exfalso
    apply hno
    rw [tryStack] at ht
    revert ht
    cases ha : allArrs rs with
    | none => simp
    | some l =>
      cases l with
      | nil =>
        intro _
        exfalso
        apply hne
        cases rs with
        | nil => rfl
        | cons r rest =>
          rw [allArrs] at ha
          revert ha
          cases arrOf r <;> cases allArrs rest <;> simp
      | cons a l2 =>
        simp only
        intro ht
        by_cases hall : l2.all (fun b => decide (b.shape = a.shape)) = true
        · refine ⟨a.shape, ?_⟩
          intro r hr
          obtain ⟨x, hx1, hx2⟩ := allArrs_mem rs (a :: l2) ha r hr
          have hxs : x.shape = a.shape := by
            rcases List.mem_cons.mp hx1 with h0 | h0
            · rw [h0]
            · have := (List.all_eq_true.mp hall) x h0
              simpa using this
          cases r with
          | arr a0 =>
            injection hx2 with h0
            simp [shapeOf, h0, hxs]
          | pair a0 sr => simp [arrOf] at hx2
          | seq l3 => simp [arrOf] at hx2
          | dictData l3 => simp [arrOf] at hx2
        · rw [if_neg hall] at ht
          exact Option.noConfusion ht

theorem recLoadDict_spec (fs : FS) (frames start : ℚ) (stop : Option ℚ)
    (dtype : Option DType) (fill : Option ℚ) (esr : Option Nat) (unit : String) (rsr : Bool) :
    ∀ (kvs : List (String × PathTree)) (rs : List (String × AudioData)),
      recLoadDict fs kvs frames start stop dtype fill esr unit rsr = .ok rs →
      rs.map Prod.fst = kvs.map Prod.fst ∧ rs.length = kvs.length ∧
      ∀ i, i < kvs.length →
        recursive_load_audio fs ((kvs.getD i ("", .node [])).2) frames start stop dtype fill
          esr unit rsr = .ok ((rs.getD i ("", .arr ⟨[], []⟩)).2) := by
  intro kvs
  induction kvs with
  | nil =>
    intro rs h
    rw [recLoadDict] at h
    injection h with h0
    subst h0
    exact ⟨rfl, rfl, fun i hi => absurd hi (by simp)⟩
  | cons kv rest ih =>
    intro rs h
    rw [recLoadDict] at h
    revert h
    cases hv : recursive_load_audio fs kv.2 frames start stop dtype fill esr unit rsr with
    | error e => simp
    | ok dv =>
      cases hrest : recLoadDict fs rest frames start stop dtype fill esr unit rsr with
      | error e => simp
      | ok ds =>
        simp only
        intro h
        injection h with h0
        subst h0
        obtain ⟨hkeys, hlen, hpt⟩ := ih ds hrest
        refine ⟨by simp [hkeys], by simp [hlen], ?_⟩
        intro i hi
        cases i with
        | zero => simpa using hv
        | succ j =>
          have hj : j < rest.length := by simpa using hi
          simpa using hpt j hj

/-! ## Claim C1 -/

/-- C1: for every path string whose suffix after the last `::` is a valid
slice annotation, `_parse_audio_slice` losslessly recovers the encoded
bounds as `(path, start, stop, channel)`: a missing start becomes `0`, a
missing stop stays absent, a bare integer after the comma becomes a
single integer channel index, and a `lo:hi` form after the comma becomes
a half-open channel range (with `annChan` spelling out the channel
semantics, under which an empty bare group or an empty range leaves the
channel absent). -/
theorem c1_parse_roundtrip (s : String) (p : List Char) (a : SliceAnn)
    (hgood : goodAnn a)
    (h : rsplitDC s.data = some (p, renderAnn a)) :
    _parse_audio_slice s 0 none none =
      .ok (⟨p⟩, (((a.first.map digitsVal).getD 0 : Nat) : ℚ),
           (a.second.map digitsVal).map (fun n => ((n : Nat) : ℚ)), annChan a) := by
  simp only [_parse_audio_slice, h, ne_eq, not_true_eq_false, if_false, ite_false]
  rw [if_neg (space_not_in_renderAnn a hgood)]
  rcases hch : a.chan with _ | cp
  · simp [parseAnn_render_none a hgood hch, annChan, hch]
  · cases cp with
    | bare i =>
      cases i with
      | none => simp [parseAnn_render_bare a hgood none hch, annChan, hch]
      | some d => simp [parseAnn_render_bare a hgood (some d) hch, annChan, hch]
    | rng lo hi =>
      rw [parseAnn_render_rng a hgood lo hi hch]
      simp only [annChan, hch]
      rcases lo with _ | dlo <;> rcases hi with _ | dhi <;>
        simp [Option.map_none, Option.map_some]

theorem c1_witness :
    _parse_audio_slice "f.wav::[8000:16000,0]" 0 none none =
      .ok ("f.wav", (8000 : ℚ), some (16000 : ℚ), some (.index 0)) := by
  rw [c1_parse_roundtrip "f.wav::[8000:16000,0]" "f.wav".data
    ⟨some "8000".data, some "16000".data, some (.bare (some "0".data))⟩
    (by constructor
        · intro d hd; rw [Option.mem_def] at hd; injection hd with h0; subst h0
          exact ⟨by decide, by decide⟩
        constructor
        · intro d hd; rw [Option.mem_def] at hd; injection hd with h0; subst h0
          exact ⟨by decide, by decide⟩
        · intro d hd; rw [Option.mem_def] at hd; injection hd with h0; subst h0
          exact ⟨by decide, by decide⟩)
    (by decide)]
  decide

/-! ## Claim C3 (corrected) -/

/-- C3 counterexample: an annotation containing a space fails with a bare
`AssertionError`, not with the `ValueError` that wraps the parse
exception and names the path, refuting the claim as stated for the
whitespace case. -/
theorem c3_counterexample :
    load_audio fsEx "m.wav::[1 :2]" (-1) 0 none none (some .float64) none none
      "samples" false = .error .assertionError := by decide

/-- C3 amended: for every path whose slice annotation (the suffix after
the last `::`) does not match the slice grammar, `load_audio` fails; an
annotation containing a space character fails first with a bare
`AssertionError`, and any other annotation that fails the grammar fails
with a `ValueError` that wraps the original parse exception and names
the offending path. -/
theorem c3_amended (fs : FS) (s : String) (p ann : List Char)
    (h : rsplitDC s.data = some (p, ann))
    (dtype : Option DType) (fill : Option ℚ) (esr : Option Nat) (rsr : Bool) :
    (' ' ∈ ann →
      load_audio fs s (-1) 0 none none dtype fill esr "samples" rsr =
        .error .assertionError)
    ∧ (' ' ∉ ann → parseAnn ann = none →
      load_audio fs s (-1) 0 none none dtype fill esr "samples" rsr =
        .error (.valueErrorFrom s)) := by
  have hdc := containsDC_of_rsplit s.data (p, ann) h
  constructor
  · intro hsp
    simp only [load_audio, hdc, if_true, ne_eq, not_true_eq_false, if_false, ite_false,
      _parse_audio_slice, h, ethrow, epure, ebind_ok, ebind_err]
    rw [if_pos hsp]
    rfl
  · intro hsp hpa
    simp only [load_audio, hdc, if_true, ne_eq, not_true_eq_false, if_false, ite_false,
      _parse_audio_slice, h, ethrow, epure, ebind_ok, ebind_err]
    rw [if_neg hsp, hpa]
    rfl

theorem c3_witness :
    (' ' ∈ "[1x]".data →
      load_audio fsEx "m.wav::[1x]" (-1) 0 none none (some .float64) none none
        "samples" false = .error .assertionError)
    ∧ (' ' ∉ "[1x]".data → parseAnn "[1x]".data = none →
      load_audio fsEx "m.wav::[1x]" (-1) 0 none none (some .float64) none none
        "samples" false = .error (.valueErrorFrom "m.wav::[1x]")) :=
  c3_amended fsEx "m.wav::[1x]" "m.wav".data "[1x]".data (by decide)
    (some .float64) none none false

/-! ## Claim C4 -/

/-- C4: for every `load_audio` call on a path carrying a `::` slice
annotation, if any of `start`, `stop`, `channel` is not at its default
`(0, absent, absent)`, or `frames` is not the read-to-end sentinel `-1`,
or `unit` is not `samples`, the call fails with an assertion error; the
conclusion holds for every file system, so no decode is involved. -/
theorem c4_mutual_exclusion (fs : FS) (path : String) (frames start : ℚ)
    (stop : Option ℚ) (channel : Option Channel) (dtype : Option DType)
    (fill : Option ℚ) (esr : Option Nat) (unit : String) (rsr : Bool)
    (hdc : containsDC path.data = true)
    (hnd : unit ≠ "samples" ∨ frames ≠ -1 ∨ start ≠ 0 ∨ stop ≠ none ∨ channel ≠ none) :
    load_audio fs path frames start stop channel dtype fill esr unit rsr =
      .error .assertionError := by
  simp only [load_audio, hdc, if_true]
  by_cases hu : unit = "samples"
  case neg =>
    rw [if_pos hu, ethrow, ebind_err]
  case pos =>
    rw [if_neg (by simp [hu])]
    simp only [epure, ebind_ok, ebind_err, ethrow]
    by_cases hf : frames = -1
    case neg =>
      rw [if_pos hf]
    case pos =>
      rw [if_neg (by simp [hf])]
      simp only [epure, ebind_ok, ebind_err, ethrow, _parse_audio_slice]
      by_cases hs : start = 0
      case neg =>
        rw [if_pos hs, ebind_err]
      case pos =>
        rw [if_neg (by simp [hs])]
        by_cases hst : stop = none
        case neg =>
          rw [if_pos hst, ebind_err]
        case pos =>
          rw [if_neg (by simp [hst])]
          have hch : channel ≠ none := by
            rcases hnd with h0 | h0 | h0 | h0 | h0
            · exact absurd hu h0
            · exact absurd hf h0
            · exact absurd hs h0
            · exact absurd hst h0
            · exact h0
          rw [if_pos hch, ebind_err]

theorem c4_witness :
    load_audio fsEx "m.wav::[1:2]" 0 0 none none (some .float64) none none
      "samples" false = .error .assertionError :=
  c4_mutual_exclusion fsEx "m.wav::[1:2]" 0 0 none none (some .float64) none none
    "samples" false (by decide) (Or.inr (Or.inl (by norm_num)))

/-! ## Claim C5 -/

/-- C5: a `load_audio` call with `unit == 'seconds'` (and a non-negative
`stop`, which would otherwise be rejected) behaves exactly like the same
call with `unit == 'samples'` whose values have been converted
independently against the sample rate of a metadata-only open of the
file: `start` becomes `round(start * sr)`, `frames` is converted only
when positive, and a present non-negative `stop` is converted only when
positive (a zero `stop` passes through, with the same value `round`
would give); no value is rounded after being combined with another.
With `unit == 'samples'` the right-hand side shows all values passing
through unchanged. -/
theorem c5_seconds_conversion (fs : FS) (file : AudioFile) (path : String)
    (frames start : ℚ) (stop : Option ℚ) (channel : Option Channel)
    (dtype : Option DType) (fill : Option ℚ) (esr : Option Nat) (rsr : Bool)
    (hf : fs path = some file) (hdc : containsDC path.data = false)
    (hstop : ∀ q ∈ stop, 0 ≤ q) :
    load_audio fs path frames start stop channel dtype fill esr "seconds" rsr =
      load_audio fs path
        (if 0 < frames then ((npRound (frames * (file.samplerate : ℚ)) : Int) : ℚ) else frames)
        ((npRound (start * (file.samplerate : ℚ)) : Int) : ℚ)
        (stop.map (fun q => if 0 < q then ((npRound (q * (file.samplerate : ℚ)) : Int) : ℚ) else q))
        channel dtype fill esr "samples" rsr := by
  simp only [load_audio, hdc, Bool.false_eq_true, if_false, ite_false]
  simp only [loadAudioResolved, resolveUnit]
  simp only [if_true]
  cases stop with
  | none =>
    simp only [sfOpen, hf, epure, ebind_ok, Option.map_none]
    rw [if_neg (show ¬(("seconds" : String) = "samples") by decide), ebind_ok]
  | some q =>
    have hq : ¬ q < 0 := not_lt.mpr (hstop q rfl)
    simp only [if_neg hq, sfOpen, hf, epure, ebind_ok, Option.map_some]
    rw [if_neg (show ¬(("seconds" : String) = "samples") by decide), ebind_ok]

theorem c5_witness :
    load_audio fsEx "a.wav" 1 (1 / 2) (some 2) none (some .float64) none none
      "seconds" false =
    load_audio fsEx "a.wav"
      (if 0 < (1 : ℚ) then ((npRound (1 * ((fileA.samplerate : Nat) : ℚ)) : Int) : ℚ) else 1)
      ((npRound ((1 / 2) * ((fileA.samplerate : Nat) : ℚ)) : Int) : ℚ)
      ((some (2 : ℚ)).map (fun q =>
        if 0 < q then ((npRound (q * ((fileA.samplerate : Nat) : ℚ)) : Int) : ℚ) else q))
      none (some .float64) none none "samples" false :=
  c5_seconds_conversion fsEx fileA "a.wav" 1 (1 / 2) (some 2) none (some .float64)
    none none false (by rfl) (by decide)
    (by
      intro q hq
      rw [Option.mem_def] at hq
      injection hq with h0
      rw [← h0]
      norm_num)

/-! ## Claim C2 -/

/-- C2: for a successful whole-file `load_audio` on a soundfile-decoded
path, the result has axis order `(channel, sample)` — the decoded
`(sample, channel)` buffer is transposed before channel selection and
before returning, so the element at channel `c`, frame `t` is the file's
channel-`c` sample at frame `t` — a single-channel file loaded without a
channel request returns a strictly one-dimensional buffer of shape
`(samples,)`, and an integer channel request selects along the channel
axis of the transposed buffer. -/
theorem c2_axis_order (fs : FS) (file : AudioFile) (path : String)
    (hf : fs path = some file) (hdc : containsDC path.data = false)
    (hsuf : pySuffix path ≠ ".m4a") :
    (∃ a, load_audio fs path (-1) 0 none none (some .float64) none none "samples" false =
        .ok (.signal a) ∧
      (if file.channels = 1
       then a.shape = [file.frames] ∧ ∀ t, t < file.frames → a.at1 t = file.sample 0 t
       else a.shape = [file.channels, file.frames] ∧
         ∀ c t, c < file.channels → t < file.frames → a.at2 c t = file.sample c t))
    ∧ (∀ i : Nat, i < file.channels → 0 < file.frames →
      ∃ a, load_audio fs path (-1) 0 none (some (.index (Int.ofNat i))) (some .float64)
          none none "samples" false = .ok (.signal a) ∧
        a.shape = [file.frames] ∧ ∀ t, t < file.frames → a.at1 t = file.sample i t) :=
  ⟨load_whole_noChannel fs file path hf hdc hsuf,
   fun i hi hF => load_whole_indexChannel fs file path hf hdc hsuf i hi hF⟩

theorem c2_witness :
    (∃ a, load_audio fsEx "m.wav" (-1) 0 none none (some .float64) none none
        "samples" false = .ok (.signal a) ∧
      (if fileM.channels = 1
       then a.shape = [fileM.frames] ∧ ∀ t, t < fileM.frames → a.at1 t = fileM.sample 0 t
       else a.shape = [fileM.channels, fileM.frames] ∧
         ∀ c t, c < fileM.channels → t < fileM.frames → a.at2 c t = fileM.sample c t))
    ∧ (∀ i : Nat, i < fileM.channels → 0 < fileM.frames →
      ∃ a, load_audio fsEx "m.wav" (-1) 0 none (some (.index (Int.ofNat i))) (some .float64)
          none none "samples" false = .ok (.signal a) ∧
        a.shape = [fileM.frames] ∧ ∀ t, t < fileM.frames → a.at1 t = fileM.sample i t) :=
  c2_axis_order fsEx fileM "m.wav" (by rfl) (by decide) (by decide)

/-! ## Claim C6 -/

/-- C6: for every `load_audio` call requesting more frames than remain in
the file after the start offset: with `fill_value` supplied, the
returned buffer's sample axis has exactly the requested length and the
positions past the available frames carry the fill value; without
`fill_value`, the returned buffer contains only the available frames and
no error is raised. -/
theorem c6_fill_policy (fs : FS) (file : AudioFile) (path : String) (s k : Nat)
    (fill : Option ℚ)
    (hf : fs path = some file) (hdc : containsDC path.data = false)
    (hsuf : pySuffix path ≠ ".m4a") (hs : s ≤ file.frames)
    (hover : file.frames - s < k) :
    ∃ a, load_audio fs path ((k : ℚ)) ((s : ℚ)) none none (some .float64) fill none
        "samples" false = .ok (.signal a) ∧
      a.shape = (if file.channels = 1
        then [(match fill with | none => file.frames - s | some _ => k)]
        else [file.channels, (match fill with | none => file.frames - s | some _ => k)]) ∧
      (∀ v, fill = some v → ∀ c t, c < file.channels → file.frames - s ≤ t → t < k →
        (if file.channels = 1 then a.at1 t else a.at2 c t) = v) := by
  simp only [load_audio, hdc, Bool.false_eq_true, if_false, ite_false, loadAudioResolved,
    resolveUnit, if_true, epure, ebind_ok, decode]
  rw [if_neg hsuf]
  simp only [sfOpen, hf, epure, ebind_ok, prepare_startFrames file.frames s k hs,
    read_over file s k fill false hover, Option.isSome_none, Bool.false_eq_true, false_or,
    wrapDecode]
  by_cases hc : file.channels = 1
  · rw [if_neg (fun hne => hne hc)]
    refine ⟨_, rfl, ?_, ?_⟩
    · rw [if_pos hc]
      simp [NDArr.T]
    · intro v hv c t hcc hge hlt
      rw [if_pos hc]
      subst hv
      simp only [NDArr.T, NDArr.at1]
      rw [getD_range_map _ _ _ hlt]
      rw [if_neg (by omega)]
      rfl
  · rw [if_pos hc]
    refine ⟨_, rfl, ?_, ?_⟩
    · rw [if_neg hc]
      simp [NDArr.T]
    · intro v hv c t hcc hge hlt
      rw [if_neg hc]
      subst hv
      simp only [NDArr.T]
      rw [at2_mk _ _ _ c t hcc hlt]
      rw [at2_mk _ _ _ t c hlt hcc]
      rw [if_neg (by omega)]
      rfl

theorem c6_witness :
    ∃ a, load_audio fsEx "a.wav" ((5 : Nat) : ℚ) ((0 : Nat) : ℚ) none none
        (some .float64) (some 9) none "samples" false = .ok (.signal a) ∧
      a.shape = (if fileA.channels = 1
        then [(match (some (9 : ℚ)) with | none => fileA.frames - 0 | some _ => 5)]
        else [fileA.channels, (match (some (9 : ℚ)) with | none => fileA.frames - 0 | some _ => 5)]) ∧
      (∀ v, (some (9 : ℚ)) = some v → ∀ c t, c < fileA.channels → fileA.frames - 0 ≤ t → t < 5 →
        (if fileA.channels = 1 then a.at1 t else a.at2 c t) = v) :=
  c6_fill_policy fsEx fileA "a.wav" 0 5 (some 9) (by rfl) (by decide) (by decide)
    (Nat.zero_le _) (by decide)

/-! ## Claim C7 -/

/-- C7: for every `load_audio` call whose channel selection applies
without an `IndexError` but selects zero elements out of the decoded
signal, the call fails with the `ValueError` stating the selection would
be empty, rather than returning an empty buffer. -/
theorem c7_empty_selection (fs : FS) (file : AudioFile) (path : String) (ch : Channel)
    (hf : fs path = some file) (hdc : containsDC path.data = false)
    (hsuf : pySuffix path ≠ ".m4a")
    (hvalid : chanValid ch file.channels = true)
    (hempty : selSize ch file.channels file.frames = 0) :
    load_audio fs path (-1) 0 none (some ch) (some .float64) none none "samples" false =
      .error (.valueError "Returned signal would be empty") := by
  simp only [load_audio, hdc, Bool.false_eq_true, if_false, ite_false, loadAudioResolved,
    resolveUnit, if_true, epure, ebind_ok, decode]
  rw [if_neg hsuf]
  simp only [sfOpen, hf, epure, ebind_ok, prepare_whole, read_whole, Option.isSome_some,
    true_or, if_true, wrapDecode]
  simp only [NDArr.T]
  rw [if_neg (by simp [NDArr.ndim])]
  obtain ⟨b, hb, hbsize⟩ := select_spec
    ⟨[file.channels, file.frames],
     grid file.channels file.frames (fun j i =>
       NDArr.at2 ⟨[file.frames, file.channels],
         grid file.frames file.channels (fun t c => if t < file.frames then file.sample c (0 + t) else 0)⟩ i j)⟩
    file.channels file.frames rfl ch hvalid
  rw [hb]
  simp only [epure, ebind_ok]
  rw [if_pos (hbsize.trans hempty)]
  rfl

theorem c7_witness :
    load_audio fsEx "m.wav" (-1) 0 none (some (.slc (some 5) (some 7))) (some .float64)
      none none "samples" false = .error (.valueError "Returned signal would be empty") :=
  c7_empty_selection fsEx fileM "m.wav" (.slc (some 5) (some 7)) (by rfl) (by decide)
    (by decide) (by decide) (by decide)

/-! ## Claim C10 -/

/-- C10: a `load_audio` call with a valid, nonempty channel selection and
a resolved read window of zero frames fails with the
`Returned signal would be empty` error even though every selected
channel exists: the emptiness check tests the element count of the
sliced buffer, not whether the channel selection intersects the file's
channels. -/
theorem c10_zero_frames (fs : FS) (file : AudioFile) (path : String) (s : Nat) (ch : Channel)
    (hf : fs path = some file) (hdc : containsDC path.data = false)
    (hsuf : pySuffix path ≠ ".m4a")
    (hvalid : chanValid ch file.channels = true)
    (hrows : 0 < selRows ch file.channels) :
    load_audio fs path (-1) ((s : ℚ)) (some ((s : ℚ))) (some ch) (some .float64) none none
      "samples" false = .error (.valueError "Returned signal would be empty") := by
  simp only [load_audio, hdc, Bool.false_eq_true, if_false, ite_false, loadAudioResolved,
    resolveUnit, if_true, epure, ebind_ok, decode]
  rw [if_neg hsuf]
  simp only [sfOpen, hf, epure, ebind_ok, prepare_emptyWindow, read_zero, Option.isSome_some,
    true_or, if_true, wrapDecode]
  simp only [NDArr.T]
  rw [if_neg (by simp [NDArr.ndim])]
  obtain ⟨b, hb, hbsize⟩ := select_spec
    ⟨[file.channels, 0],
     grid file.channels 0 (fun j i => NDArr.at2 ⟨[0, file.channels], []⟩ i j)⟩
    file.channels 0 rfl ch hvalid
  rw [hb]
  simp only [epure, ebind_ok]
  rw [if_pos (hbsize.trans (selSize_zero ch file.channels))]
  rfl

theorem c10_witness :
    load_audio fsEx "m.wav" (-1) ((1 : Nat) : ℚ) (some ((1 : Nat) : ℚ)) (some (.index 0))
      (some .float64) none none "samples" false =
      .error (.valueError "Returned signal would be empty") :=
  c10_zero_frames fsEx fileM "m.wav" 1 (.index 0) (by rfl) (by decide) (by decide)
    (by decide) (by decide)

/-! ## Claim C8 -/

/-- C8: when `expected_sample_rate` is supplied and differs from the
decoded file's sample rate, `load_audio` fails with the `ValueError`
carrying both rates (the requested and the actual one); when the rates
agree or `expected_sample_rate` is absent, no call — whatever its other
parameters — ever produces that error, and the signal values are the
file's samples unchanged (no implicit resampling), as the value-level
theorem for C2 exhibits. -/
theorem c8_sample_rate (fs : FS) (file : AudioFile) (path : String)
    (hf : fs path = some file) (hdc : containsDC path.data = false)
    (hsuf : pySuffix path ≠ ".m4a") :
    (∀ r : Nat, r ≠ file.samplerate →
      load_audio fs path (-1) 0 none none (some .float64) none (some r) "samples" false =
        .error (.valueErrorSampleRate r file.samplerate))
    ∧ (∀ (frames start : ℚ) (stop : Option ℚ) (channel : Option Channel)
        (dtype : Option DType) (fill : Option ℚ) (esr : Option Nat) (unit : String)
        (rsr : Bool) (a b : Nat), (esr = none ∨ esr = some file.samplerate) →
      load_audio fs path frames start stop channel dtype fill esr unit rsr ≠
        .error (.valueErrorSampleRate a b)) := by
  constructor
  · intro r hne
    simp only [load_audio, hdc, Bool.false_eq_true, if_false, ite_false, loadAudioResolved,
      resolveUnit, if_true, epure, ebind_ok, decode]
    rw [if_neg hsuf]
    simp only [sfOpen, hf, epure, ebind_ok, prepare_whole, read_whole, Option.isSome_none,
      Bool.false_eq_true, false_or, wrapDecode]
    rw [if_pos hne]
    rfl
  · intro frames start stop channel dtype fill esr unit rsr a b hesr
    simp only [load_audio, hdc, Bool.false_eq_true, if_false, ite_false, loadAudioResolved]
    apply bind_ne_error
    · exact resolveUnit_no_sr fs path unit start stop frames a b
    intro r
    apply bind_ne_error2
    · exact wrapDecode_no_sr path _ a b
        (decode_no_sr fs path r.1 r.2.1 r.2.2 dtype fill channel.isSome a b)
    intro d hd
    have hd2 : d.2 = file.samplerate :=
      decode_ok_srate fs file path r.1 r.2.1 r.2.2 dtype fill channel.isSome d hf
        (wrapDecode_ok path _ d hd)
    apply bind_ne_error
    · rcases hesr with he | he
      · rw [he]
        simp [epure]
      · rw [he, hd2]
        simp [epure]
    intro u
    apply bind_ne_error
    · split
      · simp [epure]
      · split
        · simp [ethrow, ebind_err]
        · simp only [epure, ebind_ok]
          apply bind_ne_error
          · exact select_no_sr _ _ a b
          intro s
          split
          · simp [ethrow, ebind_err]
          · simp [epure, ebind_ok]
    intro s2
    split <;> simp [epure]

theorem c8_witness :
    load_audio fsEx "m.wav" (-1) 0 none none (some .float64) none (some 8000)
        "samples" false = .error (.valueErrorSampleRate 8000 fileM.samplerate) ∧
    load_audio fsEx "m.wav" (-1) 0 none none (some .float64) none (some 16000)
        "samples" false ≠ .error (.valueErrorSampleRate 8000 16000) :=
  ⟨(c8_sample_rate fsEx fileM "m.wav" (by rfl) (by decide) (by decide)).1 8000 (by decide),
   (c8_sample_rate fsEx fileM "m.wav" (by rfl) (by decide) (by decide)).2 (-1) 0 none none
     (some .float64) none (some 16000) "samples" false 8000 16000 (Or.inr rfl)⟩

/-! ## Claim C9 -/

/-- C9: `recursive_load_audio` delegates a non-container leaf to
`load_audio` with the same keyword parameters (and no channel); it loads
a key-value mapping value-wise, preserving keys and never stacking; and
for an ordered sequence it loads each entry with identical parameters
and stacks the results into one buffer with a new leading axis if and
only if all of them are numeric arrays of one common shape — otherwise
the ordered sequence of individually-shaped results is returned
unchanged. -/
theorem c9_recursive (fs : FS) (frames start : ℚ) (stop : Option ℚ)
    (dtype : Option DType) (fill : Option ℚ) (esr : Option Nat) (unit : String) (rsr : Bool) :
    (∀ p : String,
      recursive_load_audio fs (.leaf p) frames start stop dtype fill esr unit rsr =
        Except.map loadConv (load_audio fs p frames start stop none dtype fill esr unit rsr))
    ∧ (∀ (kvs : List (String × PathTree)) (rs : List (String × AudioData)),
        recLoadDict fs kvs frames start stop dtype fill esr unit rsr = .ok rs →
        recursive_load_audio fs (.dict kvs) frames start stop dtype fill esr unit rsr =
          .ok (.dictData rs) ∧
        rs.map Prod.fst = kvs.map Prod.fst ∧ rs.length = kvs.length ∧
        ∀ i, i < kvs.length →
          recursive_load_audio fs ((kvs.getD i ("", .node [])).2) frames start stop dtype fill
            esr unit rsr = .ok ((rs.getD i ("", .arr ⟨[], []⟩)).2))
    ∧ (∀ (ts : List PathTree) (rs : List AudioData) (s : List Nat),
        recLoadList fs ts frames start stop dtype fill esr unit rsr = .ok rs →
        rs ≠ [] → (∀ r ∈ rs, shapeOf r = some s) →
        recursive_load_audio fs (.node ts) frames start stop dtype fill esr unit rsr =
          .ok (.arr ⟨rs.length :: s, flatQ (rs.map dataOf)⟩))
    ∧ (∀ (ts : List PathTree) (rs : List AudioData),
        recLoadList fs ts frames start stop dtype fill esr unit rsr = .ok rs →
        rs ≠ [] → (¬ ∃ s, ∀ r ∈ rs, shapeOf r = some s) →
        recursive_load_audio fs (.node ts) frames start stop dtype fill esr unit rsr =
          .ok (.seq rs)) := by
  refine ⟨?_, ?_, ?_, ?_⟩
  · intro p
    rw [recursive_load_audio]
    cases h : load_audio fs p frames start stop none dtype fill esr unit rsr with
    | error e => simp [Except.map]
    | ok v => cases v <;> simp [Except.map, loadConv]
  · intro kvs rs h
    obtain ⟨hkeys, hlen, hpt⟩ :=
      recLoadDict_spec fs frames start stop dtype fill esr unit rsr kvs rs h
    refine ⟨?_, hkeys, hlen, hpt⟩
    rw [recursive_load_audio, h]
  · intro ts rs s h hne hsh
    rw [recursive_load_audio, h]
    simp only [tryStack_some rs s hne hsh]
  · intro ts rs h hne hno
    rw [recursive_load_audio, h]
    simp only [tryStack_none rs hne hno]

theorem c9_witness :
    (recursive_load_audio fsEx (.leaf "a.wav") (-1) 0 none (some .float64) none none
        "samples" false =
      Except.map loadConv (load_audio fsEx "a.wav" (-1) 0 none none (some .float64) none none
        "samples" false))
    ∧ (recursive_load_audio fsEx (.dict [("k", .leaf "z.wav")]) (-1) 0 none (some .float64)
        none none "samples" false = .ok (.dictData [("k", .arr ⟨[0], []⟩)]))
    ∧ (recursive_load_audio fsEx (.node [.leaf "z.wav", .leaf "z.wav"]) (-1) 0 none
        (some .float64) none none "samples" false = .ok (.arr ⟨[2, 0], []⟩))
    ∧ (recursive_load_audio fsEx (.node [.leaf "z.wav", .dict []]) (-1) 0 none
        (some .float64) none none "samples" false = .ok (.seq [.arr ⟨[0], []⟩, .dictData []])) := by
  have h := c9_recursive fsEx (-1) 0 none (some .float64) none none "samples" false
  refine ⟨h.1 "a.wav", ?_, ?_, ?_⟩
  · exact (h.2.1 [("k", PathTree.leaf "z.wav")] [("k", .arr ⟨[0], []⟩)] (by rfl)).1
  · exact h.2.2.1 [.leaf "z.wav", .leaf "z.wav"] [.arr ⟨[0], []⟩, .arr ⟨[0], []⟩] [0]
      (by rfl) (by simp) (by intro r hr; fin_cases hr <;> rfl)
  · exact h.2.2.2 [.leaf "z.wav", .dict []] [.arr ⟨[0], []⟩, .dictData []] (by rfl)
      (by simp)
      (by
        rintro ⟨s, hs⟩
        have h0 := hs (.dictData []) (by simp)
        simp [shapeOf] at h0)

end Paderbox
